import Mathlib

/-!
Verification development for the Hygieia health-data aggregator.

The dashboard page (chat, metrics cards, day navigation, layout-specific
averages), the AI-trainer page (training-result handling) and the merge /
analytics policies documented in the repository are embedded shallowly:
JavaScript numbers are modelled as exact rationals, JSON objects as
structures or association lists, `fetch` outcomes as an explicit sum type,
and React state updates as pure state-passing functions.
-/

namespace Hygieia

/-! ## Chat interface (Dashboard `sendChatMessage`, message rendering) -/

/-- One entry of the dashboard `chatMessages` state:
`type` (`user` or `ai`), `message`, and an optional `confidence` number. -/
structure ChatMsg where
  type : String
  message : String
  confidence : Option ℚ
deriving DecidableEq, Repr

/-- The dashboard component state touched by `sendChatMessage`. -/
structure ChatState where
  chatMessages : List ChatMsg
  chatInput : String
  isLoadingChat : Bool
deriving DecidableEq, Repr

/-- Outcome of the chat `fetch` round trip:
either the parsed JSON body `{response, confidence}` or a thrown error
(network failure / JSON parse failure), which lands in the `catch` branch. -/
inductive FetchOutcome where
  | success (response : String) (confidence : ℚ)
  | failure
deriving DecidableEq, Repr

/-- The fixed apology message appended in the `catch` branch of
`sendChatMessage`. -/
def chatApology : String :=
  "Sorry, I had trouble processing your question. Please try again."

/-- The guard `!message.trim()`: a JavaScript string trims to the empty
string exactly when every character is whitespace. -/
def isBlank (s : String) : Bool :=
  s.toList.all (fun c => c.isWhitespace)

/-- Function `sendChatMessage` from the dashboard page: early return when the trimmed
message is empty or a chat request is already loading; otherwise append the
user message, clear the input, set loading, then append exactly one AI
message (the backend response with its confidence, or the apology on
failure), and finally clear the loading flag. -/
def sendChatMessage (message : String) (st : ChatState) (outcome : FetchOutcome) :
    ChatState :=
  if isBlank message || st.isLoadingChat then st
  else
    let afterUser : List ChatMsg := st.chatMessages ++ [⟨"user", message, none⟩]
    let aiMsg : ChatMsg :=
      match outcome with
      | .success resp conf => ⟨"ai", resp, some conf⟩
      | .failure => ⟨"ai", chatApology, none⟩
    ⟨afterUser ++ [aiMsg], "", false⟩

/-- Number of AI messages in a transcript. -/
def countAI (msgs : List ChatMsg) : Nat :=
  (msgs.filter (fun m => m.type = "ai")).length

/-- The confidence line of a rendered chat message is guarded by the JSX
expression `msg.confidence && (...)`: it renders only when `msg.confidence`
is a truthy JavaScript number, i.e. present and nonzero. -/
def rendersConfidence (m : ChatMsg) : Bool :=
  match m.confidence with
  | some c => decide (c ≠ 0)
  | none => false

/-- The AI message `sendChatMessage` appends for a given backend outcome. -/
def aiReply (outcome : FetchOutcome) : ChatMsg :=
  match outcome with
  | .success resp conf => ⟨"ai", resp, some conf⟩
  | .failure => ⟨"ai", chatApology, none⟩

/-! ## Dashboard empty state (`hasData`) -/

/-- A raw metrics object as delivered by `/health/dashboard`: a JavaScript
object mapping metric names to arrays of `{date, value}` rows, or absent.
Modelled as an association list so that `Object.keys(...).length` is the
list length and property access is `lookup`. -/
def MetricsObj : Type := List (String × List (String × ℚ))

/-- Predicate `hasData` from the dashboard page:
`healthData.metrics && Object.keys(healthData.metrics).length > 0 &&
healthData.metrics.sleep && healthData.metrics.sleep.length > 0`. -/
def hasData (metrics : Option MetricsObj) : Bool :=
  match metrics with
  | none => false
  | some m =>
    decide (0 < m.length) &&
      (match m.lookup "sleep" with
       | some sleepRows => decide (0 < sleepRows.length)
       | none => false)

/-- The dashboard renders the "No Health Data Connected" card exactly when
`!hasData` (the `{!hasData ? ... : ...}` branch). -/
def showsEmptyState (metrics : Option MetricsObj) : Bool :=
  !hasData metrics

/-- Metric cards and charts are rendered exactly in the other branch of the
same conditional. -/
def showsMetricCards (metrics : Option MetricsObj) : Bool :=
  hasData metrics

/-! ## Day navigation (`currentDayIndex`) -/

/-- The two day-navigation buttons of the dashboard header. -/
inductive NavAction where
  | prevDay
  | nextDay
deriving DecidableEq, Repr

/-- One click: "previous day" runs
`setCurrentDayIndex(Math.min(sleep.length - 1, i + 1))`, "next day" runs
`setCurrentDayIndex(Math.max(0, i - 1))`. Indices are JavaScript numbers,
modelled as integers. -/
def navStep (sleepLen : Nat) (i : ℤ) : NavAction → ℤ
  | .prevDay => min ((sleepLen : ℤ) - 1) (i + 1)
  | .nextDay => max 0 (i - 1)

/-- The index reached from the initial / data-load value 0 by a sequence of
clicks. -/
def navRun (sleepLen : Nat) (actions : List NavAction) : ℤ :=
  actions.foldl (navStep sleepLen) 0

/-! ## Data Unifier (README merge pseudocode, `merge_health_data`) -/

/-- Metric kinds covered by the README source-prioritization pseudocode. -/
inductive Kind where
  | sleep
  | steps
  | heart_rate
deriving DecidableEq, Repr

/-- A per-source per-metric daily dictionary, as in `oura_data.get(date)`:
`none` models a missing key (Python `None`). -/
def SourceDict : Type := String → Option ℚ

/-- Python `a or b` on optional numeric dictionary results: a present
nonzero value is truthy and wins; `None` and `0` are falsy and fall through
to the second operand. -/
def pyOr (a b : Option ℚ) : Option ℚ :=
  match a with
  | some v => if v = 0 then b else some v
  | none => b

/-- The README merge pseudocode, per metric kind and date:
`sleep`: `oura_data.get(date) or apple_data.get(date)`;
`steps`: `apple_data.get(date) or oura_data.get(date)`;
`heart_rate`: `oura_data.get(date) or apple_data.get(date)`. -/
def mergeValue (k : Kind) (oura apple : SourceDict) (date : String) : Option ℚ :=
  match k with
  | .sleep => pyOr (oura date) (apple date)
  | .steps => pyOr (apple date) (oura date)
  | .heart_rate => pyOr (oura date) (apple date)

/-- The first source consulted for a kind, per the fixed priority order of
the pseudocode. -/
def firstSource (k : Kind) (oura apple : SourceDict) : SourceDict :=
  match k with
  | .sleep => oura
  | .steps => apple
  | .heart_rate => oura

/-- The second (fallback) source for a kind. -/
def secondSource (k : Kind) (oura apple : SourceDict) : SourceDict :=
  match k with
  | .sleep => apple
  | .steps => oura
  | .heart_rate => apple

/-- Merge `merge_health_data`: the unified series for one kind over a date range,
keeping a date exactly when the merged value is present. -/
def unify (oura apple : SourceDict) (dates : List String) (k : Kind) :
    List (String × ℚ) :=
  dates.filterMap (fun d => (mergeValue k oura apple d).map (fun v => (d, v)))

/-! ## Minimal-layout averages (`renderCharts`, minimal branch) -/

/-- JavaScript `Array.prototype.slice(-n)`: the last `min(n, length)`
elements. -/
def sliceLast (n : Nat) (l : List ℚ) : List ℚ :=
  l.drop (l.length - n)

/-- The "Avg Sleep" value of the minimal layout:
`sleep.slice(-7).reduce((sum, item) => sum + item.value, 0) / 7`
(the `.toFixed(1)` that follows is string formatting only). -/
def avgSleepMinimal (values : List ℚ) : ℚ :=
  (sliceLast 7 values).sum / 7

/-- JavaScript `Math.round` on a nonnegative number: round half up. -/
def jsRound (q : ℚ) : ℤ :=
  ⌊q + 1 / 2⌋

/-- The "Avg Steps" value of the minimal layout:
`Math.round(steps.slice(-7).reduce((sum, item) => sum + item.value, 0) / 7)`. -/
def avgStepsMinimal (values : List ℚ) : ℤ :=
  jsRound ((sliceLast 7 values).sum / 7)

/-- Arithmetic mean of the entries actually present (division by zero on the
empty list yields 0, as usual for rationals). -/
def listMean (l : List ℚ) : ℚ :=
  l.sum / l.length

/-! ## Training result (AI-trainer `startTraining`, dashboard `quickTrainAI`) -/

/-- The JSON body returned by `POST /health/ai/train`, with exactly the
fields its two frontend consumers read: `result.status`,
`result.data_points`, `result.models_trained`, `result.ml_models_trained`
and `result.message`. Optional fields model keys that may be absent. -/
structure TrainResult where
  status : String
  data_points : Option ℕ
  models_trained : Option (List String)
  ml_models_trained : Option ℕ
  message : Option String
deriving DecidableEq, Repr

/-- The key set of the train-endpoint response object, as consumed by
`quickTrainAI` and `startTraining`. -/
def trainResultKeys : List String :=
  ["status", "data_points", "models_trained", "ml_models_trained", "message"]

/-- State `trainingStatus` of the AI-trainer page. -/
structure TrainingStatus where
  status : String
  progress : ℕ
  error : Option String
deriving DecidableEq, Repr

/-- State `modelInfo` of the AI-trainer page (fields set by
`startTraining`). -/
structure ModelInfo where
  model_id : String
  training_samples : ℕ
  status : String
  capabilities : List String
deriving DecidableEq, Repr

/-- Result handling of `startTraining`: on `result.status === "trained"`
set a completed status and a `ModelInfo` built from `result.data_points`
and `result.models_trained`; otherwise a failed status carrying
`result.message`. -/
def processTrainingResult (r : TrainResult) : TrainingStatus × Option ModelInfo :=
  if r.status = "trained" then
    (⟨"completed", 100, none⟩,
     some ⟨"demo_model", r.data_points.getD 0, "ready", r.models_trained.getD []⟩)
  else
    (⟨"failed", 0, r.message⟩, none)

/-! ## Anomaly Detector (spec-modelled) -/

/-- Population variance of a list of rationals (0 on the empty list). -/
def listVariance (l : List ℚ) : ℚ :=
  (l.map (fun x => (x - listMean l) ^ 2)).sum / l.length

/-- Modelled from the spec: the Anomaly Detector helpers
(`calculate_personal_baseline`, `std_deviation`,
`count_consecutive_above_threshold`) are not under `src/` — only the README
pseudocode of `detect_health_anomalies` is. Per §4.3, a day deviates when
its value lies beyond baseline mean ± k·stddev; stated squared to stay in
exact arithmetic: `(x − μ)² > k²·σ²`. -/
def isDeviant (baseline : List ℚ) (k x : ℚ) : Bool :=
  decide (k ^ 2 * listVariance baseline < (x - listMean baseline) ^ 2)

/-- Length of the streak of consecutive entries satisfying `p` at the head
of the list (the recent days, most recent first). -/
def leadingRun (p : ℚ → Bool) : List ℚ → ℕ
  | [] => 0
  | x :: xs => if p x then leadingRun p xs + 1 else 0

/-- A Warning produced by the anomaly detector. -/
structure AnomalyWarning where
  runLength : ℕ
  message : String
deriving DecidableEq, Repr

/-- Modelled from the spec: the Anomaly Detector body is absent from `src/`
(README pseudocode only). Per §4.3 and the pseudocode: with a baseline
window of at least `minBase` days (default 7), a Warning is emitted exactly
when the consecutive-day run of deviations beyond mean ± k·stddev
(default k = 2) has length at least `minRun` (default 3); otherwise, or
with an insufficient baseline, no warning. -/
def detectAnomaly (baseline recent : List ℚ) (minBase minRun : ℕ) (k : ℚ) :
    Option AnomalyWarning :=
  if baseline.length < minBase then none
  else if minRun ≤ leadingRun (isDeviant baseline k) recent then
    some ⟨leadingRun (isDeviant baseline k) recent,
      "Elevated for " ++ toString (leadingRun (isDeviant baseline k) recent) ++
        " consecutive days"⟩
  else none

/-! ## Correlation Engine (spec-modelled) -/

/-- One per-kind metric series: ordered (date, value) pairs. -/
abbrev Series : Type := List (String × ℚ)

/-- Inner join of two series on shared dates, yielding value pairs. -/
def alignedPairs (x y : Series) : List (ℚ × ℚ) :=
  x.filterMap (fun r => (y.lookup r.1).map (fun vy => (r.2, vy)))

/-- Sample covariance (population normalization) of aligned value pairs. -/
def covariance (ps : List (ℚ × ℚ)) : ℚ :=
  ((ps.map (fun p =>
      (p.1 - listMean (ps.map Prod.fst)) * (p.2 - listMean (ps.map Prod.snd)))).sum) /
    ps.length

/-- A correlation insight: the two metric kinds it references, the squared
correlation coefficient, and the aligned sample size. -/
structure Insight where
  kindA : String
  kindB : String
  corrSq : ℚ
  sample : ℕ
deriving DecidableEq, Repr

/-- Modelled from the spec: the Correlation Engine implementation is absent
from `src/`. Per §4.2: align the two series on shared dates, require at
least 5 aligned points, exclude pairs where either aligned series has zero
variance (undefined correlation), and otherwise report the correlation
(carried squared, `cov²/(σx²·σy²)`, to stay in exact arithmetic). -/
def correlationInsight (kx ky : String) (x y : Series) : Option Insight :=
  if (alignedPairs x y).length < 5 then none
  else if listVariance ((alignedPairs x y).map Prod.fst) = 0 ∨
      listVariance ((alignedPairs x y).map Prod.snd) = 0 then none
  else
    some ⟨kx, ky,
      covariance (alignedPairs x y) ^ 2 /
        (listVariance ((alignedPairs x y).map Prod.fst) *
          listVariance ((alignedPairs x y).map Prod.snd)),
      (alignedPairs x y).length⟩

/-- All unordered pairs of distinct positions of a list. -/
def allPairs {α : Type} : List α → List (α × α)
  | [] => []
  | x :: xs => xs.map (fun y => (x, y)) ++ allPairs xs

/-- Modelled from the spec: the insight list of `analyze` — one candidate
correlation insight per unordered pair of metric series in the unified
dataset, dropping the pairs the guards exclude. -/
def analyzeInsights (ds : List (String × Series)) : List Insight :=
  (allPairs ds).filterMap (fun p => correlationInsight p.1.1 p.2.1 p.1.2 p.2.2)

/-- A constant-valued (zero-variance) series: every value equals the first. -/
def isConstantSeries (x : Series) : Bool :=
  match x with
  | [] => true
  | r :: rest => rest.all (fun s => s.2 = r.2)

/-! ## Example inputs shared by several theorems -/

/-- Example wearable-ring dictionary: a present value 0 on the first date, a
present 7 on the second. -/
def ouraEx : SourceDict := fun d =>
  if d = "2024-01-01" then some 0 else if d = "2024-01-02" then some 7 else none

/-- Example Apple-export dictionary: a present 6 on the first date only. -/
def appleEx : SourceDict := fun d =>
  if d = "2024-01-01" then some 6 else none

/-! ## Theorems -/

/-- Claim C1. The chat backend body `{response, confidence}` is stored on
the appended AI message with its confidence intact, but the rendering guard
`msg.confidence && (...)` treats confidence 0 as falsy: the confidence line
is not rendered at confidence 0, while a nonzero confidence is rendered.
This contradicts the spec sentence that a confidence of 0 must be surfaced,
not hidden. -/
theorem chat_confidence_zero_hidden :
    (sendChatMessage "Why is my confidence low?" ⟨[], "", false⟩
        (FetchOutcome.success "I found no clear evidence." 0)).chatMessages =
      [⟨"user", "Why is my confidence low?", none⟩,
       ⟨"ai", "I found no clear evidence.", some 0⟩] ∧
    rendersConfidence ⟨"ai", "I found no clear evidence.", some 0⟩ = false ∧
    rendersConfidence ⟨"ai", "I found no clear evidence.", some (1 / 2)⟩ = true := by
  refine ⟨by decide, by norm_num [rendersConfidence], by norm_num [rendersConfidence]⟩

/-- Claim C4. Unification is deterministic: two runs of `unify` on
identical raw inputs (the same source dictionaries and the same date range)
produce identical unified series; the embedding is a pure function of its
inputs, mirroring the absence of any nondeterministic construct in the
merge code. -/
theorem unify_deterministic (oura apple oura2 apple2 : SourceDict)
    (dates dates2 : List String) (k : Kind)
    (ho : oura = oura2) (ha : apple = apple2) (hd : dates = dates2) :
    unify oura apple dates k = unify oura2 apple2 dates2 k := by
  subst ho; subst ha; subst hd; rfl

/-- Witness for claim C4 at concrete inputs. -/
theorem unify_deterministic_witness :
    unify ouraEx appleEx ["2024-01-01", "2024-01-02"] Kind.sleep =
      unify ouraEx appleEx ["2024-01-01", "2024-01-02"] Kind.sleep :=
  unify_deterministic ouraEx appleEx ouraEx appleEx
    ["2024-01-01", "2024-01-02"] ["2024-01-01", "2024-01-02"] Kind.sleep rfl rfl rfl

/-- Counterexample for claim C7 as stated: a chat invocation with a blank
question string is an early return — no AI message is appended at all, so
the universally quantified "appends exactly one AI message" fails. -/
theorem chat_blank_message_no_ai_cex :
    sendChatMessage "" ⟨[], "", false⟩ FetchOutcome.failure = ⟨[], "", false⟩ ∧
    countAI (sendChatMessage "" ⟨[], "", false⟩ FetchOutcome.failure).chatMessages ≠
      countAI ([] : List ChatMsg) + 1 := by
  refine ⟨by decide, by decide⟩

/-- Claim C7 (amended). For every invocation with a non-blank question
while no chat request is loading, and whatever the backend outcome
(success with any confidence, or a thrown error), no exception crosses the
interface: the resulting state appends the user message and exactly one AI
message (the backend response with its confidence, or the fixed apology),
and the loading flag is false afterwards. -/
theorem chat_appends_one_ai_message (message : String) (st : ChatState)
    (outcome : FetchOutcome)
    (h1 : isBlank message = false) (h2 : st.isLoadingChat = false) :
    sendChatMessage message st outcome =
      ⟨st.chatMessages ++ [⟨"user", message, none⟩, aiReply outcome], "", false⟩ ∧
    countAI (sendChatMessage message st outcome).chatMessages =
      countAI st.chatMessages + 1 ∧
    (sendChatMessage message st outcome).isLoadingChat = false := by
  have hstate : sendChatMessage message st outcome =
      ⟨st.chatMessages ++ [⟨"user", message, none⟩, aiReply outcome], "", false⟩ := by
    unfold sendChatMessage
    rw [h1, h2]
    cases outcome <;> simp [aiReply]
  refine ⟨hstate, ?_, by rw [hstate]⟩
  rw [hstate]
  show countAI (st.chatMessages ++ [⟨"user", message, none⟩, aiReply outcome]) = _
  unfold countAI
  rw [List.filter_append, List.length_append]
  congr 1
  cases outcome <;> simp [aiReply, List.filter]

/-- Witness for claim C7 (amended) at a concrete question, state and
backend failure. -/
theorem chat_appends_one_ai_message_witness :
    sendChatMessage "Should I rest?" ⟨[], "", false⟩ FetchOutcome.failure =
      ⟨[⟨"user", "Should I rest?", none⟩, aiReply FetchOutcome.failure], "", false⟩ ∧
    countAI (sendChatMessage "Should I rest?" ⟨[], "", false⟩
        FetchOutcome.failure).chatMessages = countAI ([] : List ChatMsg) + 1 ∧
    (sendChatMessage "Should I rest?" ⟨[], "", false⟩ FetchOutcome.failure).isLoadingChat =
      false := by
  simpa using
    chat_appends_one_ai_message "Should I rest?" ⟨[], "", false⟩ FetchOutcome.failure
      (by decide) rfl

/-- Characterization of `hasData` on a present metrics object: it holds
exactly when the sleep property is present and nonempty. -/
lemma hasData_some_iff (m : MetricsObj) :
    hasData (some m) = true ↔ ∃ rows, m.lookup "sleep" = some rows ∧ rows ≠ [] := by
  unfold hasData
  rcases hl : m.lookup "sleep" with _ | rows
  · simp [hl]
  · have hm : m ≠ [] := by
      intro he
      rw [he] at hl
      simp [List.lookup] at hl
    have hlen : 0 < m.length := List.length_pos.mpr hm
    simp only [hl, Bool.and_eq_true, decide_eq_true_eq, Option.some.injEq]
    constructor
    · rintro ⟨-, hr⟩
      exact ⟨rows, rfl, by intro he; rw [he] at hr; simp at hr⟩
    · rintro ⟨rows2, hr2, hne⟩
      refine ⟨hlen, ?_⟩
      rw [hr2]
      exact List.length_pos.mpr hne

/-- Claim C9. The dashboard shows the "No Health Data Connected" empty
state exactly when the metrics object is absent or empty, or the sleep
series is missing or empty; in particular a dataset holding only a steps
series is treated as having no data, and renders no metric cards or
charts. -/
theorem empty_state_iff_no_sleep :
    (∀ metrics : Option MetricsObj, showsEmptyState metrics = true ↔
       metrics = none ∨ ∃ m, metrics = some m ∧
         (m = [] ∨ m.lookup "sleep" = none ∨ m.lookup "sleep" = some [])) ∧
    showsEmptyState (some [("steps", [("2024-01-01", 8000)])]) = true ∧
    showsMetricCards (some [("steps", [("2024-01-01", 8000)])]) = false := by
  refine ⟨?_, by decide, by decide⟩
  intro metrics
  cases metrics with
  | none => simp [showsEmptyState, hasData]
  | some m =>
    rw [showsEmptyState, Bool.not_eq_true']
    rw [← Bool.not_eq_true (hasData (some m))] at *
    constructor
    · intro hfalse
      have hno : ¬ ∃ rows, m.lookup "sleep" = some rows ∧ rows ≠ [] := by
        intro hex
        exact hfalse ((hasData_some_iff m).mpr hex)
      right
      refine ⟨m, rfl, ?_⟩
      rcases hl : m.lookup "sleep" with _ | rows
      · exact Or.inr (Or.inl rfl)
      · rcases rows with _ | ⟨r, rest⟩
        · exact Or.inr (Or.inr rfl)
        · exact absurd ⟨r :: rest, hl, by simp⟩ hno
    · rintro (hnone | ⟨m2, hm2, hcases⟩)
      · exact absurd hnone (by simp)
      · have hm : m2 = m := by injection hm2.symm
        subst hm
        intro htrue
        obtain ⟨rows, hr, hne⟩ := (hasData_some_iff m2).mp htrue
        rcases hcases with he | hnone | hempty
        · rw [he] at hr
          simp [List.lookup] at hr
        · rw [hnone] at hr
          exact Option.noConfusion hr
        · rw [hempty] at hr
          injection hr with hr2
          exact hne hr2.symm

/-- Each navigation click keeps an in-bounds index in bounds. -/
lemma navStep_bounds (sleepLen : Nat) (hL : 1 ≤ sleepLen) (i : ℤ)
    (h0 : 0 ≤ i) (h1 : i ≤ (sleepLen : ℤ) - 1) (a : NavAction) :
    0 ≤ navStep sleepLen i a ∧ navStep sleepLen i a ≤ (sleepLen : ℤ) - 1 := by
  have hL' : (1 : ℤ) ≤ (sleepLen : ℤ) := by exact_mod_cast hL
  cases a with
  | prevDay =>
    refine ⟨le_min (by omega) (by omega), min_le_left _ _⟩
  | nextDay =>
    refine ⟨le_max_left _ _, max_le (by omega) (by omega)⟩

/-- A fold of navigation clicks preserves the index bounds. -/
lemma navFold_bounds (sleepLen : Nat) (hL : 1 ≤ sleepLen) :
    ∀ (actions : List NavAction) (i : ℤ), 0 ≤ i → i ≤ (sleepLen : ℤ) - 1 →
      0 ≤ actions.foldl (navStep sleepLen) i ∧
        actions.foldl (navStep sleepLen) i ≤ (sleepLen : ℤ) - 1
  | [], i, h0, h1 => ⟨h0, h1⟩
  | a :: actions, i, h0, h1 => by
    rw [List.foldl_cons]
    obtain ⟨g0, g1⟩ := navStep_bounds sleepLen hL i h0 h1 a
    exact navFold_bounds sleepLen hL actions _ g0 g1

/-- Claim C10. For a loaded dataset with a non-empty sleep series, the
day-navigation index reached from the load-time value 0 by any sequence of
previous-day / next-day clicks stays within `[0, sleep.length - 1]`. -/
theorem nav_index_in_bounds (sleepLen : Nat) (h : 1 ≤ sleepLen)
    (actions : List NavAction) :
    0 ≤ navRun sleepLen actions ∧ navRun sleepLen actions ≤ (sleepLen : ℤ) - 1 := by
  have h1 : (1 : ℤ) ≤ (sleepLen : ℤ) := by exact_mod_cast h
  exact navFold_bounds sleepLen h actions 0 le_rfl (by omega)

/-- Witness for claim C10 on a 7-day series and a concrete click
sequence. -/
theorem nav_index_in_bounds_witness :
    0 ≤ navRun 7 [NavAction.prevDay, NavAction.prevDay, NavAction.nextDay] ∧
    navRun 7 [NavAction.prevDay, NavAction.prevDay, NavAction.nextDay] ≤ (7 : ℤ) - 1 :=
  nav_index_in_bounds 7 (by decide) [NavAction.prevDay, NavAction.prevDay, NavAction.nextDay]

/-- Result of Python `a or b` when the first operand is a present nonzero
value. -/
lemma pyOr_eq_of_ne_zero (a b : Option ℚ) (v : ℚ) (ha : a = some v) (hv : v ≠ 0) :
    pyOr a b = some v := by
  rw [ha]; simp [pyOr, hv]

/-- Result of Python `a or b` when the first operand is a present zero. -/
lemma pyOr_zero (a b : Option ℚ) (ha : a = some 0) : pyOr a b = b := by
  rw [ha]; simp [pyOr]

/-- Result of Python `a or b` when the first operand is missing. -/
lemma pyOr_none (a b : Option ℚ) (ha : a = none) : pyOr a b = b := by
  rw [ha]; rfl

/-- Counterexample for claim C2 as stated: for sleep on a date where the
priority source (the ring) has the present value 0, the merge skips it —
Python `or` treats 0 as falsy — and returns the other source value 6
instead of the priority source value. -/
theorem merge_zero_value_skipped_cex :
    ouraEx "2024-01-01" = some 0 ∧
    mergeValue Kind.sleep ouraEx appleEx "2024-01-01" = some 6 ∧
    mergeValue Kind.sleep ouraEx appleEx "2024-01-01" ≠ ouraEx "2024-01-01" := by
  refine ⟨by decide, by decide, by decide⟩

/-- Claim C2 (amended). For every metric kind and date, the Data Unifier
returns the value of the first source in that kind's fixed priority order
whose value for the date is present and nonzero; a present value of 0 in
the priority source is passed over in favor of the fallback source, exactly
as when the priority source is missing, and when no source has a value the
date is absent from the unified series. -/
theorem merge_first_nonzero_wins (k : Kind) (oura apple : SourceDict) (d : String) :
    (∀ v : ℚ, firstSource k oura apple d = some v → v ≠ 0 →
       mergeValue k oura apple d = some v) ∧
    (firstSource k oura apple d = some 0 →
       mergeValue k oura apple d = secondSource k oura apple d) ∧
    (firstSource k oura apple d = none →
       mergeValue k oura apple d = secondSource k oura apple d) := by
  cases k <;>
    exact ⟨fun v hv hne => pyOr_eq_of_ne_zero _ _ v hv hne,
      fun hv => pyOr_zero _ _ hv, fun hv => pyOr_none _ _ hv⟩

/-- Witness for claim C2 (amended): the ring has the nonzero sleep value 7
on the second date and wins the merge. -/
theorem merge_first_nonzero_wins_witness :
    mergeValue Kind.sleep ouraEx appleEx "2024-01-02" = some 7 :=
  (merge_first_nonzero_wins Kind.sleep ouraEx appleEx "2024-01-02").1 7
    (by decide) (by decide)

/-- Counterexample for claim C6 as stated: the train response consumed by
the frontend has no `trained`, `dataPoints` or `targetsTrained` field; its
fields are `status`, `data_points`, `models_trained` (plus
`ml_models_trained` and `message`). -/
theorem train_result_fields_cex :
    ¬ "trained" ∈ trainResultKeys ∧ ¬ "dataPoints" ∈ trainResultKeys ∧
    ¬ "targetsTrained" ∈ trainResultKeys ∧ "status" ∈ trainResultKeys ∧
    "data_points" ∈ trainResultKeys ∧ "models_trained" ∈ trainResultKeys := by
  decide

/-- Claim C6 (amended). Training returns a record whose success flag is the
string field `status` (equal to `trained` on success), whose data-point
count is the integer field `data_points`, and whose list of successfully
trained targets is the string-list field `models_trained`; the AI-trainer
page consumes exactly these fields to build its model info. -/
theorem train_result_consumed_fields (r : TrainResult) (h : r.status = "trained") :
    processTrainingResult r =
      (⟨"completed", 100, none⟩,
       some ⟨"demo_model", r.data_points.getD 0, "ready", r.models_trained.getD []⟩) ∧
    "status" ∈ trainResultKeys ∧ "data_points" ∈ trainResultKeys ∧
    "models_trained" ∈ trainResultKeys := by
  refine ⟨?_, by decide, by decide, by decide⟩
  unfold processTrainingResult
  rw [if_pos h]

/-- Example successful train response. -/
def trainResultEx : TrainResult :=
  ⟨"trained", some 42, some ["sleep", "steps"], none, none⟩

/-- Witness for claim C6 (amended) at a concrete successful response. -/
theorem train_result_consumed_fields_witness :
    processTrainingResult trainResultEx =
      (⟨"completed", 100, none⟩, some ⟨"demo_model", 42, "ready", ["sleep", "steps"]⟩) ∧
    "status" ∈ trainResultKeys ∧ "data_points" ∈ trainResultKeys ∧
    "models_trained" ∈ trainResultKeys := by
  simpa [trainResultEx] using train_result_consumed_fields trainResultEx rfl

/-- Example steps series of six days with one step each. -/
def sixOnes : List ℚ := [1, 1, 1, 1, 1, 1]

/-- Counterexample for claim C8 as stated: the displayed steps average is
`Math.round(sum / 7)`, and on a six-day series of ones it equals 1 — the
arithmetic mean of the present entries — so the claimed strict inequality
fails for steps. -/
theorem avg_steps_rounding_cex :
    avgStepsMinimal sixOnes = 1 ∧ listMean sixOnes = 1 ∧
    ¬ ((avgStepsMinimal sixOnes : ℚ) < listMean sixOnes) := by
  have h1 : avgStepsMinimal sixOnes = 1 := by
    unfold avgStepsMinimal jsRound sliceLast sixOnes
    norm_num
  have h2 : listMean sixOnes = 1 := by
    unfold listMean sixOnes
    norm_num
  rw [h1, h2]
  norm_num

/-- Claim C8 (amended). In the minimal layout the displayed average sleep
is the sum of the last `min(n, 7)` entries divided by the constant 7
(before one-decimal string formatting), so for every non-empty sleep series
with fewer than 7 entries and positive values it is strictly below the
arithmetic mean of the entries present; the steps value is additionally
rounded to the nearest integer, which can cancel the strict inequality. -/
theorem avg_sleep_minimal_underestimates (values : List ℚ)
    (hne : values ≠ []) (hlen : values.length < 7) (hpos : ∀ v ∈ values, 0 < v) :
    avgSleepMinimal values = values.sum / 7 ∧
    avgSleepMinimal values < listMean values := by
  have hslice : sliceLast 7 values = values := by
    unfold sliceLast
    rw [Nat.sub_eq_zero_of_le (le_of_lt hlen), List.drop_zero]
  have hsum : 0 < values.sum := List.sum_pos values hpos hne
  refine ⟨by rw [avgSleepMinimal, hslice], ?_⟩
  rw [avgSleepMinimal, listMean, hslice]
  have hn : (0 : ℚ) < values.length := by
    exact_mod_cast List.length_pos.mpr hne
  have h7 : (0 : ℚ) < 7 := by norm_num
  rw [div_lt_div_iff₀ h7 hn]
  have hcast : (values.length : ℚ) < 7 := by exact_mod_cast hlen
  exact mul_lt_mul_of_pos_left hcast hsum

/-- Witness for claim C8 (amended) on a one-day sleep series. -/
theorem avg_sleep_minimal_underestimates_witness :
    avgSleepMinimal [8] = ([8] : List ℚ).sum / 7 ∧
    avgSleepMinimal [8] < listMean [8] := by
  refine avg_sleep_minimal_underestimates [8] (by decide) (by decide) ?_
  intro v hv
  simp only [List.mem_singleton] at hv
  rw [hv]
  norm_num

/-- Claim C3. With a sufficient baseline window (at least the minimum 7
days), the Anomaly Detector emits a Warning exactly when the
consecutive-day run of deviations beyond baseline mean ± 2·stddev has
length at least the configured minimum 3. -/
theorem anomaly_warning_iff_run (baseline recent : List ℚ)
    (h : 7 ≤ baseline.length) :
    (detectAnomaly baseline recent 7 3 2).isSome = true ↔
      3 ≤ leadingRun (isDeviant baseline 2) recent := by
  rw [detectAnomaly, if_neg (by omega : ¬ baseline.length < 7)]
  by_cases hr : 3 ≤ leadingRun (isDeviant baseline 2) recent
  · rw [if_pos hr]
    simpa using hr
  · rw [if_neg hr]
    simpa using hr

/-- Example heart-rate baseline: seven days at 60. -/
def b7 : List ℚ := [60, 60, 60, 60, 60, 60, 60]

/-- Example recent window with a three-day deviation run. -/
def recent3 : List ℚ := [100, 100, 100, 60, 60]

/-- Example recent window with a two-day deviation run. -/
def recent2 : List ℚ := [100, 100, 60, 60, 60]

/-- Mean of the example baseline. -/
lemma b7_mean : listMean b7 = 60 := by
  norm_num [listMean, b7]

/-- Variance of the example baseline. -/
lemma b7_var : listVariance b7 = 0 := by
  rw [listVariance]
  simp only [b7_mean]
  norm_num [b7]

/-- A value of 100 deviates from the example baseline. -/
lemma b7_deviant_100 : isDeviant b7 2 100 = true := by
  simp only [isDeviant, b7_var, b7_mean, decide_eq_true_eq]
  norm_num

/-- A value of 60 does not deviate from the example baseline. -/
lemma b7_deviant_60 : isDeviant b7 2 60 = false := by
  simp only [isDeviant, b7_var, b7_mean]
  norm_num

/-- Run length of the three-day example window. -/
lemma recent3_run : leadingRun (isDeviant b7 2) recent3 = 3 := by
  simp [recent3, leadingRun, b7_deviant_100, b7_deviant_60]

/-- Run length of the two-day example window. -/
lemma recent2_run : leadingRun (isDeviant b7 2) recent2 = 2 := by
  simp [recent2, leadingRun, b7_deviant_100, b7_deviant_60]

/-- Witness for claim C3: a run of length 3 yields a Warning, a run of
length 2 yields none. -/
theorem anomaly_warning_iff_run_witness :
    (detectAnomaly b7 recent3 7 3 2).isSome = true ∧
    detectAnomaly b7 recent2 7 3 2 = none := by
  constructor
  · exact (anomaly_warning_iff_run b7 recent3 (by norm_num [b7])).mpr
      (by rw [recent3_run])
  · rw [detectAnomaly, if_neg (by norm_num [b7] : ¬ b7.length < 7), recent2_run]
    norm_num

/-- Sum of a list whose members all equal one value. -/
lemma sum_of_all_eq (l : List ℚ) (c : ℚ) (h : ∀ v ∈ l, v = c) :
    l.sum = l.length * c := by
  induction l with
  | nil => simp
  | cons x xs ih =>
    have hx : x = c := h x (List.mem_cons_self x xs)
    have ih2 := ih (fun v hv => h v (List.mem_cons_of_mem x hv))
    simp only [List.sum_cons, List.length_cons, hx, ih2]
    push_cast
    ring

/-- Variance of a list whose members all equal one value is zero. -/
lemma listVariance_of_all_eq (l : List ℚ) (c : ℚ) (h : ∀ v ∈ l, v = c) :
    listVariance l = 0 := by
  rcases eq_or_ne l [] with rfl | hne
  · simp [listVariance]
  · have hlen : (l.length : ℚ) ≠ 0 :=
      Nat.cast_ne_zero.mpr (List.length_pos.mpr hne).ne'
    have hmean : listMean l = c := by
      rw [listMean, sum_of_all_eq l c h, mul_comm, mul_div_assoc, div_self hlen,
        mul_one]
    have hz : (l.map (fun x => (x - listMean l) ^ 2)).sum = 0 := by
      apply List.sum_eq_zero
      intro q hq
      rw [List.mem_map] at hq
      obtain ⟨v, hv, rfl⟩ := hq
      rw [hmean, h v hv]
      ring
    rw [listVariance, hz, zero_div]

/-- A successful association-list lookup returns a member. -/
lemma lookup_mem (l : List (String × ℚ)) (d : String) (v : ℚ)
    (h : l.lookup d = some v) : (d, v) ∈ l := by
  induction l with
  | nil => simp [List.lookup] at h
  | cons p ps ih =>
    obtain ⟨k, b⟩ := p
    simp only [List.lookup] at h
    rcases hdk : (d == k) with _ | _
    · rw [hdk] at h
      exact List.mem_cons_of_mem _ (ih h)
    · rw [hdk] at h
      injection h with hb
      have hd : d = k := eq_of_beq hdk
      exact List.mem_cons.mpr (Or.inl (by rw [hd, hb]))

/-- First components of aligned pairs are values of the left series. -/
lemma fst_mem_alignedPairs (x y : Series) (v : ℚ)
    (hv : v ∈ (alignedPairs x y).map Prod.fst) : ∃ d, (d, v) ∈ x := by
  rw [List.mem_map] at hv
  obtain ⟨p, hp, hfst⟩ := hv
  rw [alignedPairs, List.mem_filterMap] at hp
  obtain ⟨r, hr, heq⟩ := hp
  rw [Option.map_eq_some'] at heq
  obtain ⟨vy, hvy, hpair⟩ := heq
  refine ⟨r.1, ?_⟩
  have h1 : p.1 = r.2 := by rw [← hpair]
  rw [← hfst, h1, Prod.mk.eta]
  exact hr

/-- Second components of aligned pairs are values of the right series. -/
lemma snd_mem_alignedPairs (x y : Series) (v : ℚ)
    (hv : v ∈ (alignedPairs x y).map Prod.snd) : ∃ d, (d, v) ∈ y := by
  rw [List.mem_map] at hv
  obtain ⟨p, hp, hsnd⟩ := hv
  rw [alignedPairs, List.mem_filterMap] at hp
  obtain ⟨r, hr, heq⟩ := hp
  rw [Option.map_eq_some'] at heq
  obtain ⟨vy, hvy, hpair⟩ := heq
  have h2 : p.2 = vy := by rw [← hpair]
  refine ⟨r.1, ?_⟩
  rw [← hsnd, h2]
  exact lookup_mem y r.1 vy hvy

/-- An emitted insight carries the kind names of the pair it came from. -/
lemma correlationInsight_kinds (kx ky : String) (x y : Series) (ins : Insight)
    (h : correlationInsight kx ky x y = some ins) :
    ins.kindA = kx ∧ ins.kindB = ky := by
  rw [correlationInsight] at h
  by_cases h5 : (alignedPairs x y).length < 5
  · rw [if_pos h5] at h
    exact absurd h (by simp)
  · rw [if_neg h5] at h
    by_cases hv : listVariance ((alignedPairs x y).map Prod.fst) = 0 ∨
        listVariance ((alignedPairs x y).map Prod.snd) = 0
    · rw [if_pos hv] at h
      exact absurd h (by simp)
    · rw [if_neg hv] at h
      injection h with h2
      rw [← h2]
      exact ⟨rfl, rfl⟩

/-- Values of a constant series all equal the head value. -/
lemma constant_series_all_eq (r : String × ℚ) (rest : Series)
    (hc : isConstantSeries (r :: rest) = true) :
    ∀ s ∈ (r :: rest : Series), s.2 = r.2 := by
  simp only [isConstantSeries, List.all_eq_true, decide_eq_true_eq] at hc
  intro s hs
  rcases List.mem_cons.mp hs with rfl | hs2
  · rfl
  · exact hc s hs2

/-- No correlation insight is emitted when the left series is constant. -/
lemma correlationInsight_constant_left (kx ky : String) (x y : Series)
    (hc : isConstantSeries x = true) : correlationInsight kx ky x y = none := by
  rcases x with _ | ⟨r, rest⟩
  · rw [correlationInsight, if_pos (by simp [alignedPairs])]
  · have hvals : ∀ v ∈ (alignedPairs (r :: rest) y).map Prod.fst, v = r.2 := by
      intro v hv
      obtain ⟨d, hd⟩ := fst_mem_alignedPairs _ _ _ hv
      exact constant_series_all_eq r rest hc (d, v) hd
    have hvar := listVariance_of_all_eq _ _ hvals
    rw [correlationInsight]
    by_cases h5 : (alignedPairs (r :: rest) y).length < 5
    · rw [if_pos h5]
    · rw [if_neg h5, if_pos (Or.inl hvar)]

/-- No correlation insight is emitted when the right series is constant. -/
lemma correlationInsight_constant_right (kx ky : String) (x y : Series)
    (hc : isConstantSeries y = true) : correlationInsight kx ky x y = none := by
  rcases y with _ | ⟨r, rest⟩
  · have hemp : alignedPairs x [] = [] := by
      rw [alignedPairs, List.filterMap_eq_nil_iff]
      intro a ha
      rfl
    rw [correlationInsight, if_pos (by rw [hemp]; norm_num)]
  · have hvals : ∀ v ∈ (alignedPairs x (r :: rest)).map Prod.snd, v = r.2 := by
      intro v hv
      obtain ⟨d, hd⟩ := snd_mem_alignedPairs _ _ _ hv
      exact constant_series_all_eq r rest hc (d, v) hd
    have hvar := listVariance_of_all_eq _ _ hvals
    rw [correlationInsight]
    by_cases h5 : (alignedPairs x (r :: rest)).length < 5
    · rw [if_pos h5]
    · rw [if_neg h5, if_pos (Or.inr hvar)]

/-- Members of `allPairs` are members of the underlying list. -/
lemma mem_allPairs {α : Type} (l : List α) (p : α × α) (hp : p ∈ allPairs l) :
    p.1 ∈ l ∧ p.2 ∈ l := by
  induction l with
  | nil => simp [allPairs] at hp
  | cons x xs ih =>
    simp only [allPairs, List.mem_append] at hp
    rcases hp with h | h
    · rw [List.mem_map] at h
      obtain ⟨b, hb, rfl⟩ := h
      exact ⟨by simp, by simp [hb]⟩
    · obtain ⟨h1, h2⟩ := ih h
      exact ⟨by simp [h1], by simp [h2]⟩

/-- With pairwise-distinct kind names, a kind determines its series. -/
lemma key_unique (ds : List (String × Series)) (hnd : (ds.map Prod.fst).Nodup)
    (k : String) (a b : Series) (ha : (k, a) ∈ ds) (hb : (k, b) ∈ ds) : a = b := by
  induction ds with
  | nil => simp at ha
  | cons p ps ih =>
    rw [List.map_cons, List.nodup_cons] at hnd
    rcases List.mem_cons.mp ha with ha2 | ha2 <;>
      rcases List.mem_cons.mp hb with hb2 | hb2
    · rw [← ha2] at hb2
      exact ((Prod.mk.injEq _ _ _ _).mp hb2.symm).2
    · exfalso
      apply hnd.1
      have hpk : p.1 = k := by rw [← ha2]
      rw [hpk]
      exact List.mem_map_of_mem Prod.fst hb2
    · exfalso
      apply hnd.1
      have hpk : p.1 = k := by rw [← hb2]
      rw [hpk]
      exact List.mem_map_of_mem Prod.fst ha2
    · exact ih hnd.2 ha2 hb2

/-- Claim C5. For every unified dataset with pairwise-distinct kind names,
no insight emitted by `analyze` references the kind of a constant-valued
(zero-variance) series: the undefined correlation is excluded by the
variance guard, never reported as 0 or NaN. -/
theorem constant_series_never_in_insights (ds : List (String × Series))
    (kx : String) (x : Series) (hmem : (kx, x) ∈ ds)
    (hnd : (ds.map Prod.fst).Nodup) (hconst : isConstantSeries x = true) :
    (analyzeInsights ds).all
      (fun ins => !(ins.kindA == kx) && !(ins.kindB == kx)) = true := by
  rw [List.all_eq_true]
  intro ins hins
  simp only [Bool.and_eq_true, Bool.not_eq_true', beq_eq_false_iff_ne]
  rw [analyzeInsights, List.mem_filterMap] at hins
  obtain ⟨p, hp, hcorr⟩ := hins
  obtain ⟨hp1, hp2⟩ := mem_allPairs _ p hp
  obtain ⟨hA, hB⟩ := correlationInsight_kinds _ _ _ _ _ hcorr
  constructor
  · intro hAx
    rw [hA] at hAx
    have hx1 : p.1.2 = x := by
      refine key_unique ds hnd kx p.1.2 x ?_ hmem
      rw [← hAx, Prod.mk.eta]
      exact hp1
    have hnone : correlationInsight p.1.1 p.2.1 p.1.2 p.2.2 = none :=
      correlationInsight_constant_left _ _ _ _ (by rw [hx1]; exact hconst)
    rw [hnone] at hcorr
    exact Option.noConfusion hcorr
  · intro hBx
    rw [hB] at hBx
    have hy2 : p.2.2 = x := by
      refine key_unique ds hnd kx p.2.2 x ?_ hmem
      rw [← hBx, Prod.mk.eta]
      exact hp2
    have hnone : correlationInsight p.1.1 p.2.1 p.1.2 p.2.2 = none :=
      correlationInsight_constant_right _ _ _ _ (by rw [hy2]; exact hconst)
    rw [hnone] at hcorr
    exact Option.noConfusion hcorr

/-- Example constant sleep series over five days. -/
def constSleepEx : Series := [("d1", 8), ("d2", 8), ("d3", 8), ("d4", 8), ("d5", 8)]

/-- Example varying steps series over the same five days. -/
def varStepsEx : Series :=
  [("d1", 1000), ("d2", 2000), ("d3", 3000), ("d4", 4000), ("d5", 5000)]

/-- Example unified dataset holding the two example series. -/
def dsEx : List (String × Series) := [("sleep", constSleepEx), ("steps", varStepsEx)]

/-- Witness for claim C5 on a concrete dataset with a constant sleep
series. -/
theorem constant_series_never_in_insights_witness :
    (analyzeInsights dsEx).all
      (fun ins => !(ins.kindA == "sleep") && !(ins.kindB == "sleep")) = true :=
  constant_series_never_in_insights dsEx "sleep" constSleepEx (by decide)
    (by decide) (by decide)

end Hygieia
